import Mathlib

/-!
Verification development for the `async_eval` repository: a shallow embedding
of the snippet-transformation and execution pipeline, the session store, the
exit-signal type and the failure-reporting pipeline, with theorems settling
the specification claims.

The embedding covers the statement and expression kinds that the claims
exercise (plain expressions, assignments, returns, for-loops, pass);
the source dispatches over further AST kinds that no claim touches.
Machine-level collaborators that the spec declares out of scope (the Python
parser, the bytecode compiler, the event loop) are modelled at their
interfaces: a parsed module is a `List Stmt`, and executing the compiled
wrapper function is the interpreter `execBlock`.
-/

namespace AsyncEval

/-- Python runtime values, as far as the claims need them.  `pyObj` stands for
opaque objects (the `typing` module, the compiled `amain` function). -/
inductive PyVal where
  | none
  | int (n : Int)
  | str (s : String)
  | tuple (elts : List PyVal)
  | list (elts : List PyVal)
  | dict (entries : List (String × PyVal))
  | pyObj (tag : String)
  deriving Repr

/-- Variable scopes are Python dicts: insertion-ordered association lists. -/
abbrev Env := List (String × PyVal)

/-- `d[k] = v` on a Python dict: replace in place, else append. -/
def setItem : Env → String → PyVal → Env
  | [], k, v => [(k, v)]
  | (k₁, v₁) :: rest, k, v =>
      if k₁ = k then (k, v) :: rest else (k₁, v₁) :: setItem rest k v

/-- `d.get(k)` on a Python dict. -/
def lookupEnv : Env → String → Option PyVal
  | [], _ => Option.none
  | (k₁, v₁) :: rest, k => if k₁ = k then some v₁ else lookupEnv rest k

/-- `base.update(upd)` on Python dicts. -/
def updateAll (base upd : Env) : Env :=
  upd.foldl (fun acc kv => setItem acc kv.1 kv.2) base

/-- The key list of a dict, used for `name in namespace` membership tests. -/
def keys (e : Env) : List String := e.map Prod.fst

theorem lookupEnv_setItem_self (e : Env) (k : String) (v : PyVal) :
    lookupEnv (setItem e k v) k = some v := by
  induction e with
  | nil => simp [setItem, lookupEnv]
  | cons hd tl ih =>
      by_cases h : hd.1 = k
      · simp [setItem, h, lookupEnv]
      · simp [setItem, h, lookupEnv, ih]

theorem lookupEnv_setItem_ne (e : Env) (k k₂ : String) (v : PyVal)
    (h : k₂ ≠ k) : lookupEnv (setItem e k v) k₂ = lookupEnv e k₂ := by
  have hne : ¬ k = k₂ := fun hh => h hh.symm
  induction e with
  | nil => simp [setItem, lookupEnv, hne]
  | cons hd tl ih =>
      by_cases hk : hd.1 = k
      · subst hk
        simp [setItem, lookupEnv, hne]
      · simp [setItem, hk, lookupEnv, ih]

theorem setItem_setItem_same (e : Env) (k : String) (v w : PyVal) :
    setItem (setItem e k v) k w = setItem e k w := by
  induction e with
  | nil => simp [setItem]
  | cons hd tl ih =>
      by_cases h : hd.1 = k
      · simp [setItem, h]
      · simp [setItem, h, ih]

/-! ### The abstract syntax subset -/

/-- Expression binding context (`ast.Load` / `ast.Store`). -/
inductive Ctx where
  | load
  | store
  deriving Repr, DecidableEq

/-- Expressions: names, literals, tuple displays, walrus expressions, integer
addition, and the `globals()` / `locals()` calls the rewriter emits. -/
inductive Expr where
  | name (id : String) (ctx : Ctx)
  | constant (v : PyVal)
  | tuple (elts : List Expr) (ctx : Ctx)
  | namedExpr (target : Expr) (value : Expr)
  | binOpAdd (left right : Expr)
  | callGlobals
  | callLocals
  deriving Repr

/-- Statements: expression statements, assignments, `return`, `for` (with an
`orelse` clause) and `pass`. -/
inductive Stmt where
  | exprStmt (value : Expr)
  | assign (targets : List Expr) (value : Expr)
  | ret (value : Expr)
  | forStmt (target : Expr) (iter : Expr) (body : List Stmt) (orelse : List Stmt)
  | passStmt
  deriving Repr

/-! ### The tree rewriter (`utils.NodeTransformer`) -/

/-- `hasattr(value, "ctx")`: names and tuple displays carry a context. -/
def Expr.hasCtx : Expr → Bool
  | .name _ _ => true
  | .tuple _ _ => true
  | _ => false

/-- `getattr(value, "ctx")` for the nodes that have one. -/
def Expr.getCtx : Expr → Option Ctx
  | .name _ c => some c
  | .tuple _ c => some c
  | _ => Option.none

/-- `NodeTransformer.change_ctx`: copy the node and force a `Load` context. -/
def change_ctx : Expr → Expr
  | .name id _ => .name id .load
  | .tuple elts _ => .tuple elts .load
  | e => e

/-- `NodeTransformer.handle_Return` on a `return value` statement: normalize
a non-`Load` context on the value (recursing one level into tuple elements),
then return the triple `(value, globals(), locals())`. -/
def handle_Return (value : Expr) : Stmt :=
  let value :=
    if value.hasCtx && !(value.getCtx = some Ctx.load) then
      let value :=
        match value with
        | .tuple elts c => Expr.tuple (elts.map change_ctx) c
        | v => v
      change_ctx value
    else value
  Stmt.ret (Expr.tuple [value, Expr.callGlobals, Expr.callLocals] Ctx.load)

/-- `NodeTransformer.handle_Expr`: the expression value becomes the returned
value. -/
def handle_Expr (value : Expr) : Stmt :=
  handle_Return value

/-- `NodeTransformer.handle_Assign`: a single target becomes one walrus
expression, several targets become a tuple of walrus expressions in target
order; the result is returned through `handle_Return`. -/
def handle_Assign (targets : List Expr) (value : Expr) : Stmt :=
  let v :=
    if 1 < targets.length then
      Expr.tuple (targets.map fun t => Expr.namedExpr t value) Ctx.load
    else
      Expr.namedExpr (targets.headD (Expr.name ("") Ctx.store)) value
  handle_Return v

mutual

/-- `NodeTransformer.patch_statement`: dispatch on the terminal statement of a
block.  `return` and `pass` fall through unchanged, as in the source. -/
def patch_statement (s : Stmt) : Stmt :=
  match s with
  | .forStmt target iter body orelse => handle_For target iter body orelse
  | .assign targets value => handle_Assign targets value
  | .exprStmt value => handle_Expr value
  | s => s

/-- `NodeTransformer.handle_For`: recurse into the last statement of an
existing `orelse` clause, or synthesize one returning the loop target. -/
def handle_For (target iter : Expr) (body orelse : List Stmt) : Stmt :=
  match orelse with
  | [] => Stmt.forStmt target iter body [handle_Return target]
  | orelse => Stmt.forStmt target iter body (patchLast orelse)

/-- `block[-1] = patch_statement(block[-1])`. -/
def patchLast : List Stmt → List Stmt
  | [] => []
  | [s] => [patch_statement s]
  | s :: rest => s :: patchLast rest

end

mutual

/-- `NodeTransformer.patch_returns`: rewrite every `return` statement through
`handle_Return` (the source skips nested function bodies; the modelled
statement subset contains none). -/
def patch_returns : Stmt → Stmt
  | .ret v => handle_Return v
  | .forStmt t it body orelse =>
      .forStmt t it (patch_returns_list body) (patch_returns_list orelse)
  | s => s

/-- `patch_returns` over every statement of a block. -/
def patch_returns_list : List Stmt → List Stmt
  | [] => []
  | s :: rest => patch_returns s :: patch_returns_list rest

end

/-- `NodeTransformer.transform_module`: patch returns, patch the terminal
statement, then append the guaranteed empty-result exit
`return (globals(), locals())`. -/
def transform_module (body : List Stmt) : List Stmt :=
  let body := patch_returns_list body
  let body := patchLast body
  body ++ [Stmt.ret (Expr.tuple [Expr.callGlobals, Expr.callLocals] Ctx.load)]

/-! ### Execution semantics for the rewritten tree

The rewritten module becomes the body of one async function whose keyword-only
parameters are the initial locals; the engine then calls it.  Executing that
call is modelled by `execBlock` over a pair of scopes.  Suspension points do
not matter for the claims, so awaiting is transparent here. -/

/-- Python errors, as far as the claims distinguish them. -/
inductive PyErr where
  | nameError (id : String)
  | typeError
  | badContext
  | attributeError (attr : String)
  | unboundLocal (id : String)
  | indexError
  | userError (msg : String)
  deriving Repr, DecidableEq

/-- The two scopes of the running wrapper function. -/
structure Scopes where
  g : Env
  l : Env
  deriving Repr

mutual

/-- Evaluate one expression.  Reading a name resolves locals before globals;
a non-`Load` context in value position is rejected (as the bytecode compiler
would reject it); a walrus expression binds a local; `globals()` / `locals()`
return the current scopes as dicts. -/
def evalExpr : Expr → Scopes → Except PyErr (PyVal × Scopes)
  | .constant v, σ => .ok (v, σ)
  | .name id ctx, σ =>
      match ctx with
      | .store => .error PyErr.badContext
      | .load =>
          match lookupEnv σ.l id with
          | some v => .ok (v, σ)
          | Option.none =>
              match lookupEnv σ.g id with
              | some v => .ok (v, σ)
              | Option.none => .error (PyErr.nameError id)
  | .tuple elts ctx, σ =>
      match ctx with
      | .store => .error PyErr.badContext
      | .load =>
          match evalExprs elts σ with
          | .error e => .error e
          | .ok (vs, σ) => .ok (PyVal.tuple vs, σ)
  | .namedExpr target value, σ =>
      match evalExpr value σ with
      | .error e => .error e
      | .ok (v, σ) =>
          match target with
          | .name id _ => .ok (v, { σ with l := setItem σ.l id v })
          | _ => .error PyErr.badContext
  | .binOpAdd a b, σ =>
      match evalExpr a σ with
      | .error e => .error e
      | .ok (va, σ) =>
          match evalExpr b σ with
          | .error e => .error e
          | .ok (vb, σ) =>
              match va, vb with
              | PyVal.int m, PyVal.int n => .ok (PyVal.int (m + n), σ)
              | _, _ => .error PyErr.typeError
  | .callGlobals, σ => .ok (PyVal.dict σ.g, σ)
  | .callLocals, σ => .ok (PyVal.dict σ.l, σ)

/-- Evaluate a list of expressions left to right, threading the scopes. -/
def evalExprs : List Expr → Scopes → Except PyErr (List PyVal × Scopes)
  | [], σ => .ok ([], σ)
  | e :: rest, σ =>
      match evalExpr e σ with
      | .error err => .error err
      | .ok (v, σ) =>
          match evalExprs rest σ with
          | .error err => .error err
          | .ok (vs, σ) => .ok (v :: vs, σ)

end

/-- Bind an assignment or loop target (a plain name in the modelled subset)
in the local scope. -/
def bindTarget (target : Expr) (v : PyVal) (σ : Scopes) :
    Except PyErr Scopes :=
  match target with
  | .name id _ => .ok { σ with l := setItem σ.l id v }
  | _ => .error PyErr.badContext

/-- Bind each target of a (multi-target) assignment to the same value. -/
def bindTargets : List Expr → PyVal → Scopes → Except PyErr Scopes
  | [], _, σ => .ok σ
  | t :: rest, v, σ =>
      match bindTarget t v σ with
      | .error e => .error e
      | .ok σ => bindTargets rest v σ

mutual

/-- Execute one statement.  The first component of a successful result is
`some v` when a `return` statement fired. -/
def execStmt : Stmt → Scopes → Except PyErr (Option PyVal × Scopes)
  | .exprStmt e, σ =>
      match evalExpr e σ with
      | .error err => .error err
      | .ok (_, σ) => .ok (Option.none, σ)
  | .assign targets v, σ =>
      match evalExpr v σ with
      | .error err => .error err
      | .ok (val, σ) =>
          match bindTargets targets val σ with
          | .error err => .error err
          | .ok σ => .ok (Option.none, σ)
  | .ret e, σ =>
      match evalExpr e σ with
      | .error err => .error err
      | .ok (v, σ) => .ok (some v, σ)
  | .passStmt, σ => .ok (Option.none, σ)
  | .forStmt target iter body orelse, σ =>
      match evalExpr iter σ with
      | .error err => .error err
      | .ok (itv, σ) =>
          match itv with
          | PyVal.list xs => runFor target xs body orelse σ
          | PyVal.tuple xs => runFor target xs body orelse σ
          | _ => .error PyErr.typeError
termination_by s _ => (sizeOf s, 0)
decreasing_by
  all_goals simp_wf
  all_goals apply Prod.Lex.left
  all_goals simp_arith

/-- Execute a block of statements, stopping at the first `return`. -/
def execBlock : List Stmt → Scopes → Except PyErr (Option PyVal × Scopes)
  | [], σ => .ok (Option.none, σ)
  | s :: rest, σ =>
      match execStmt s σ with
      | .error err => .error err
      | .ok (some v, σ) => .ok (some v, σ)
      | .ok (Option.none, σ) => execBlock rest σ
termination_by l _ => (sizeOf l, 0)
decreasing_by
  all_goals simp_wf
  all_goals apply Prod.Lex.left
  all_goals simp_arith

/-- Run a `for` loop over the already-evaluated iterable: bind the target,
run the body (propagating an early `return`), and run the `orelse` clause
after normal completion. -/
def runFor (target : Expr) (elems : List PyVal) (body orelse : List Stmt)
    (σ : Scopes) : Except PyErr (Option PyVal × Scopes) :=
  match elems with
  | [] => execBlock orelse σ
  | v :: rest =>
      match bindTarget target v σ with
      | .error err => .error err
      | .ok σ =>
          match execBlock body σ with
          | .error err => .error err
          | .ok (some r, σ) => .ok (some r, σ)
          | .ok (Option.none, σ) => runFor target rest body orelse σ
termination_by (sizeOf body + sizeOf orelse, elems.length)
decreasing_by
  all_goals simp_wf
  · apply Prod.Lex.left
    have : 0 < sizeOf body := by cases body <;> simp_arith
    simp_arith [this]
  · apply Prod.Lex.left
    have : 0 < sizeOf orelse := by cases orelse <;> simp_arith
    simp_arith [this]
  · apply Prod.Lex.right
    simp_arith

end

/-! ### String helpers mirroring the Python string methods used -/

/-- Drop leading whitespace characters from a character list. -/
def dropLeadingWs : List Char → List Char
  | [] => []
  | c :: rest => if c.isWhitespace then dropLeadingWs rest else c :: rest

/-- `str.strip()`: remove leading and trailing whitespace. -/
def pyStrip (s : String) : String :=
  String.mk ((dropLeadingWs (dropLeadingWs s.data.reverse).reverse))

/-- Split a character list at newline characters. -/
def splitLinesAux : List Char → List Char → List String
  | [], acc => [String.mk acc.reverse]
  | c :: rest, acc =>
      if c = '\n' then String.mk acc.reverse :: splitLinesAux rest []
      else splitLinesAux rest (c :: acc)

/-- `str.splitlines()` for newline-separated text (the only separator that
occurs in snippets here); on `""` Python returns `[]`. -/
def pySplitLines (s : String) : List String :=
  if s = ("") then [] else splitLinesAux s.data []

/-! ### `utils.uniquify_name` -/

/-- Loop body of `uniquify_name`; the fuel is one more than the number of
names in the namespace, which bounds the number of iterations that can hit
(each candidate is longer than the previous one, so candidates never
repeat). -/
def uniquifyNameGo (ns : List String) : Nat → String → String
  | 0, name => name
  | fuel + 1, name =>
      if name ∈ ns then uniquifyNameGo ns fuel ("_" ++ name) else name

/-- `utils.uniquify_name`: prepend underscores until the name is free. -/
def uniquify_name (name : String) (ns : List String) : String :=
  uniquifyNameGo ns (ns.length + 1) name

/-! ### `evaluator.AEvaluator` (with `utils.ExecutionInfo`, `utils.Session`)

`AEvaluator._evaluate` is modelled by `mEvaluate`, `AEvaluator.aeval` by
`aeval`.  The parse of the stripped snippet is supplied as `parsed` (the
parser is an external collaborator per the spec); the generated UUID hash is
supplied as `newHash`.  Mutable attributes written partway through the call
persist even when it raises, so both functions always return the post-state
next to the `Except` outcome. -/

/-- The mutable state of a `utils.NodeTransformer`: the class body declares
no `typing_name`, so a fresh instance has none until `_evaluate` line 109
stores one. -/
structure TransformerState where
  typingName : Option String
  deriving Repr

/-- `utils.ExecutionInfo`: the cached execution record.  Its class body only
annotates `function_name`; no code ever assigns it, so the field is `none`
in every record the evaluator builds. -/
structure ExecInfo where
  code : String
  globals : Env
  locals : Env
  functionName : Option String := Option.none
  deriving Repr

/-- Reading `exec_info.function_name` raises `AttributeError` when the
attribute was never assigned. -/
def ExecInfo.getFunctionName (i : ExecInfo) : Except PyErr String :=
  match i.functionName with
  | some f => .ok f
  | Option.none => .error (PyErr.attributeError ("function_name"))

/-- `utils.Session`: execution cache plus the persisted scopes. -/
structure Session where
  cache : List (String × ExecInfo)
  globals : Env
  locals : Env
  deriving Repr

/-- Insert or overwrite a cache entry (dict assignment). -/
def cacheSet : List (String × ExecInfo) → String → ExecInfo →
    List (String × ExecInfo)
  | [], k, v => [(k, v)]
  | (k₁, v₁) :: rest, k, v =>
      if k₁ = k then (k, v) :: rest else (k₁, v₁) :: cacheSet rest k v

/-- `cache.get(k)`. -/
def cacheGet : List (String × ExecInfo) → String → Option ExecInfo
  | [], _ => Option.none
  | (k₁, v₁) :: rest, k => if k₁ = k then some v₁ else cacheGet rest k

/-- The full mutable state of an `evaluator.AEvaluator` instance.
`__init__` sets `session`, `node_transformer` and `empty_result` only;
`code_hash` and `function_name` do not exist until first assigned. -/
structure EvaluatorState where
  session : Session
  tstate : TransformerState
  emptyResult : Bool
  codeHash : Option String
  functionName : Option String
  deriving Repr

/-- A freshly constructed `AEvaluator()`. -/
def initEvaluator : EvaluatorState :=
  { session := ⟨[], [], []⟩
    tstate := ⟨Option.none⟩
    emptyResult := false
    codeHash := Option.none
    functionName := Option.none }

/-- What `aeval` hands back to its caller: the computed value, or the
`typing.NoReturn` sentinel standing for the spec's EMPTY_RESULT. -/
inductive AevalRet where
  | value (v : PyVal)
  | noReturn
  deriving Repr

/-- Result record of `mEvaluate`: the `Except` outcome of
`AEvaluator._evaluate` together with the attribute writes it performed. -/
structure MEvalOut where
  res : Except PyErr (PyVal × Env × Env)
  emptyResult : Bool
  tstate : TransformerState
  functionName : Option String
  deriving Repr

/-- `AEvaluator._evaluate`, faithfully ordered:
strip the code; read `node_transformer.typing_name` (AttributeError on a
fresh default transformer — it was never assigned), uniquify it against the
locals and bind the `typing` module there; uniquify and record the wrapper
name `amain`; short-circuit empty code as an empty result; otherwise
transform the parsed module, install the wrapper into the globals, execute
it, and unpack the returned pair (empty) or triple (value). -/
def mEvaluate (ts : TransformerState) (empty₀ : Bool) (code : String)
    (parsed : List Stmt) (glb loc : Env) : MEvalOut :=
  let code := pyStrip code
  match ts.typingName with
  | Option.none =>
      { res := .error (PyErr.attributeError ("typing_name"))
        emptyResult := empty₀, tstate := ts, functionName := Option.none }
  | some tn₀ =>
      let tname := uniquify_name tn₀ (keys loc)
      let loc := setItem loc tname (PyVal.pyObj ("typing"))
      let ts : TransformerState := ⟨some tname⟩
      let fname := uniquify_name ("amain") (keys glb)
      if code = ("") then
        { res := .ok (PyVal.none, [], [])
          emptyResult := true, tstate := ts, functionName := some fname }
      else
        let body := transform_module parsed
        let glb := setItem glb fname (PyVal.pyObj ("amain"))
        match execBlock body ⟨glb, loc⟩ with
        | .error e =>
            { res := .error e
              emptyResult := empty₀, tstate := ts, functionName := some fname }
        | .ok (Option.none, _) =>
            { res := .error PyErr.typeError
              emptyResult := empty₀, tstate := ts, functionName := some fname }
        | .ok (some v, _) =>
            match v with
            | PyVal.tuple [PyVal.dict ge, PyVal.dict le] =>
                { res := .ok (PyVal.none, ge, le)
                  emptyResult := true, tstate := ts,
                  functionName := some fname }
            | PyVal.tuple [r, PyVal.dict ge, PyVal.dict le] =>
                { res := .ok (r, ge, le)
                  emptyResult := empty₀, tstate := ts,
                  functionName := some fname }
            | _ =>
                { res := .error PyErr.typeError
                  emptyResult := empty₀, tstate := ts,
                  functionName := some fname }

/-- `evaluator.AEvaluator.aeval`.  When not isolating, the snippet's scopes
are pre-merged with the session's and an `ExecutionInfo` is cached under
`self.code_hash` — an attribute that does not exist before line 74 of a
previous call ever ran, so the very first non-isolated call raises
`AttributeError`.  After a successful `_evaluate`, and only then, the
session scopes are merged with the post-execution scopes. -/
def aeval (st : EvaluatorState) (code : String) (parsed : List Stmt)
    (glb addVars : Env) (isolate : Bool) (newHash : String) :
    EvaluatorState × Except PyErr AevalRet :=
  match
    (if isolate then
      some (glb, addVars, st, Option.none)
    else
      let glb := updateAll glb st.session.globals
      let addVars := updateAll addVars st.session.locals
      match st.codeHash with
      | Option.none => Option.none
      | some h =>
          let info : ExecInfo := { code := code, globals := glb,
                                   locals := addVars }
          some (glb, addVars,
            { st with session :=
                { st.session with cache := cacheSet st.session.cache h info } },
            some h)) with
  | Option.none => (st, .error (PyErr.attributeError ("code_hash")))
  | some (glb, addVars, st, oldHash) =>
      let st := { st with codeHash := some newHash }
      let out := mEvaluate st.tstate st.emptyResult code parsed glb addVars
      let st := { st with tstate := out.tstate, emptyResult := out.emptyResult,
                          functionName := out.functionName }
      match out.res with
      | .error e => (st, .error e)
      | .ok (r, ge, le) =>
          let st :=
            if isolate then st
            else
              let sess := st.session
              let sess := { sess with globals := updateAll sess.globals ge,
                                      locals := updateAll sess.locals le }
              let sess :=
                match oldHash with
                | some h =>
                    match cacheGet sess.cache h with
                    | some info =>
                        let info := { info with globals := ge, locals := le }
                        { sess with cache := cacheSet sess.cache h info }
                    | Option.none => sess
                | Option.none => sess
              { st with session := sess }
          (st, .ok (if st.emptyResult then AevalRet.noReturn
                    else AevalRet.value r))

/-! ### `aeval.AEvaluator` (the `aeval.py` variant)

Its `aeval` wraps the inner `evaluate` call in a bare `except:` that calls
`exc_handler` (which only prints a patched traceback) and does not re-raise;
afterwards the code uses `result` and `variables`, names that were never
bound on the exception path, so the caller receives `UnboundLocalError`
instead of the original error.  The inner call's outcome is supplied as
`inner` (paired with the `empty_result` flag value it leaves behind),
because the claims quantify over it. -/

/-- `aeval.Session`: cached source text plus the persisted scopes. -/
structure SessionA where
  cachedCode : List (String × String)
  globals : Env
  locals : Env
  deriving Repr

/-- Insert or overwrite an entry of `cached_code`. -/
def codeSet : List (String × String) → String → String →
    List (String × String)
  | [], k, v => [(k, v)]
  | (k₁, v₁) :: rest, k, v =>
      if k₁ = k then (k, v) :: rest else (k₁, v₁) :: codeSet rest k v

/-- `aeval.Session.variables`: `globals | locals`. -/
def SessionA.variables (s : SessionA) : Env :=
  updateAll s.globals s.locals

/-- `aeval.AEvaluator.aeval`.  Note that the snippet is stored into
`session.cached_code` before the try block, unconditionally — also when
`isolate` is true. -/
def aevalA (sess : SessionA) (code : String) (glb addVars : Env)
    (isolate : Bool) (newHash : String)
    (inner : Except PyErr (PyVal × Env × Env)) (emptyFlag : Bool) :
    SessionA × Except PyErr AevalRet :=
  let _glb := glb
  let addVars :=
    if isolate then addVars else updateAll addVars sess.variables
  let _addVars := addVars
  let sess := { sess with cachedCode := codeSet sess.cachedCode newHash code }
  match inner with
  | .ok (r, ge, le) =>
      let sess :=
        if isolate then sess
        else { sess with globals := updateAll sess.globals ge,
                         locals := updateAll sess.locals le }
      (sess, .ok (if emptyFlag then AevalRet.noReturn else AevalRet.value r))
  | .error _ =>
      if isolate then
        if emptyFlag then (sess, .ok AevalRet.noReturn)
        else (sess, .error (PyErr.unboundLocal ("result")))
      else (sess, .error (PyErr.unboundLocal ("variables")))

/-! ### `types.EvaluatorExit` and `types.ExecutionContext._evaluate` -/

/-- The exit-signal value as built by `EvaluatorExit.__init__`. -/
structure EvaluatorExit where
  globals : Env
  locals : Env
  emptyResult : Bool
  result : PyVal
  deriving Repr

/-- `EvaluatorExit.__init__(globals, locals, *result)`: an empty rest tuple
means an empty result with `None` stored; otherwise the first rest argument
is the result. -/
def evaluatorExitInit (globals locals : Env) (result : List PyVal) :
    EvaluatorExit :=
  match result with
  | [] => { globals := globals, locals := locals,
            emptyResult := true, result := PyVal.none }
  | r :: _ => { globals := globals, locals := locals,
                emptyResult := false, result := r }

/-- What running the compiled snippet inside
`ExecutionContext._evaluate` can do: raise the synthetic exit signal
`EvaluatorExit(globals, locals, *args)`, or raise a real error. -/
inductive RawExec where
  | exitSig (globals locals : Env) (args : List PyVal)
  | raiseErr (e : PyErr)
  deriving Repr

/-- The mutable fields of a `types.ExecutionContext` that `_evaluate`
touches. -/
structure ExecContextSt where
  globals : Env
  locals : Env
  result : Option PyVal
  emptyResult : Bool
  excInfo : Option PyErr
  deriving Repr

/-- `types.ExecutionContext._evaluate` after compilation: the only handler
that consumes an exception is the one for the synthetic `EvaluatorExit`; a
real error has its info recorded and is re-raised unchanged. -/
def contextEvaluate (ctx : ExecContextSt) (run : RawExec) :
    ExecContextSt × Except PyErr (PyVal × Env × Env) :=
  match run with
  | .exitSig g l args =>
      let e := evaluatorExitInit g l args
      let ctx := { ctx with globals := e.globals, locals := e.locals,
                            result := some e.result,
                            emptyResult := e.emptyResult }
      (ctx, .ok (e.result, e.globals, e.locals))
  | .raiseErr err =>
      ({ ctx with excInfo := some err }, .error err)

/-! ### `__init__._AsyncEval.aeval` (the package-level variant)

Line 18 strips the snippet into `original` but line 21 tests the original
unstripped `code`, so only the exactly-empty string short-circuits;
whitespace-only text proceeds to `ast.parse(original)` — the standard parser
turns pure whitespace into a module with an empty body — and
`transform` then evaluates `module.body[-1]`, raising `IndexError`.
Everything past the terminal-statement access is irrelevant to the claims
and is summarized by the `proceeded` outcome. -/

/-- Outcome of the guard portion of `_AsyncEval.aeval`. -/
inductive InitOutcome where
  | emptySentinel
  | proceeded (terminal : Stmt)
  deriving Repr

/-- The empty-snippet guard of `_AsyncEval.aeval` followed by `transform`'s
terminal-statement access.  `parsed` is the standard parser's output for the
stripped text. -/
def asyncEvalAeval (code : String) (parsed : List Stmt) :
    Except PyErr InitOutcome :=
  let _original := pyStrip code
  if code = ("") then .ok InitOutcome.emptySentinel
  else
    match parsed.getLast? with
    | Option.none => .error PyErr.indexError
    | some s => .ok (InitOutcome.proceeded (patch_statement s))

/-! ### The failure-reporting pipeline (`evaluator.py` lines 183-348)

`filename_pattern` is the regex `\<code (uuid4)\>`; it is embedded as a
deterministic character-list matcher (every alternative in the uuid pattern
separates dashes from hex digits, so the regex backtracks nowhere). -/

/-- A lowercase hex digit, the `[a-f0-9]` character class. -/
def isHexLower (c : Char) : Bool :=
  c.isDigit || (('a' ≤ c) && (c ≤ 'f'))

/-- Consume exactly `n` hex digits. -/
def takeHex : Nat → List Char → Option (List Char)
  | 0, cs => some cs
  | _ + 1, [] => Option.none
  | n + 1, c :: cs => if isHexLower c then takeHex n cs else Option.none

/-- Consume the optional dash `-?`. -/
def skipDash : List Char → List Char
  | '-' :: cs => cs
  | cs => cs

/-- Consume one expected literal character. -/
def expectChar (c : Char) : List Char → Option (List Char)
  | x :: cs => if x = c then some cs else Option.none
  | [] => Option.none

/-- Consume one character of the `[89ab]` class. -/
def expectVariant : List Char → Option (List Char)
  | x :: cs =>
      if x = '8' || x = '9' || x = 'a' || x = 'b' then some cs
      else Option.none
  | [] => Option.none

/-- Match the uuid4 pattern
`[a-f0-9]{8}-?[a-f0-9]{4}-?4[a-f0-9]{3}-?[89ab][a-f0-9]{3}-?[a-f0-9]{12}`
and return the remaining characters. -/
def matchUuidRest (cs : List Char) : Option (List Char) :=
  match takeHex 8 cs with
  | Option.none => Option.none
  | some cs =>
  match takeHex 4 (skipDash cs) with
  | Option.none => Option.none
  | some cs =>
  match expectChar '4' (skipDash cs) with
  | Option.none => Option.none
  | some cs =>
  match takeHex 3 cs with
  | Option.none => Option.none
  | some cs =>
  match expectVariant (skipDash cs) with
  | Option.none => Option.none
  | some cs =>
  match takeHex 3 cs with
  | Option.none => Option.none
  | some cs => takeHex 12 (skipDash cs)

/-- Consume an expected literal prefix. -/
def expectPrefix : List Char → List Char → Option (List Char)
  | [], cs => some cs
  | _ :: _, [] => Option.none
  | p :: ps, c :: cs => if c = p then expectPrefix ps cs else Option.none

/-- Try to match `\<code (uuid4)\>` at the head of the character list,
returning the captured group. -/
def tryCodeTag (cs : List Char) : Option String :=
  match expectPrefix ("<code ").data cs with
  | Option.none => Option.none
  | some cs =>
      match matchUuidRest cs with
      | Option.none => Option.none
      | some rest =>
          match expectChar '>' rest with
          | Option.none => Option.none
          | some _ => some (String.mk (cs.take (cs.length - rest.length)))

/-- Leftmost search for the pattern. -/
def findCodeHashAux : List Char → Option String
  | [] => Option.none
  | c :: cs =>
      match tryCodeTag (c :: cs) with
      | some h => some h
      | Option.none => findCodeHashAux cs

/-- `filename_pattern.search(s)` with the captured uuid group. -/
def findCodeHash (s : String) : Option String :=
  findCodeHashAux s.data

/-- `AEvaluator._get_exec_info`: when the filename matches the synthetic
pattern, look the hash up in the session cache; when it does not match,
`exec_info` was never assigned and the trailing `return exec_info` raises
`UnboundLocalError`. -/
def getExecInfo (cache : List (String × ExecInfo)) (filename : String) :
    Except PyErr (Option ExecInfo) :=
  match findCodeHash filename with
  | some h => .ok (cacheGet cache h)
  | Option.none => .error (PyErr.unboundLocal ("exec_info"))

/-- One raw frame out of `traceback.extract_tb`. -/
structure FrameSummary where
  filename : String
  lineno : Option Nat
  name : String
  line : Option String
  deriving Repr, DecidableEq

/-- `utils.PatchedFrame`: `line` and `pointer` default to `""` and are only
set when truthy. -/
structure PatchedFrame where
  filename : String
  lineno : Option Nat
  name : String
  line : String := ""
  pointer : String := ""
  deriving Repr, DecidableEq

/-- `PatchedFrame.__str__` (a `None` line number is interpolated as the text
`None`, as Python's f-string would). -/
def PatchedFrame.render (f : PatchedFrame) : String :=
  let ln := match f.lineno with
            | some n => toString n
            | Option.none => "None"
  "  File \x22" ++ f.filename ++ "\x22, line " ++ ln ++ ", in " ++ f.name
    ++ (if f.line = ("") then "" else "\n    " ++ f.line)
    ++ (if f.pointer = ("") then "" else "\n" ++ f.pointer)

/-- The pointer dictionary produced by `extract_pointers`, keyed like the
source by `(filename, lineno, name)`. -/
abbrev Pointers := List ((String × Option Nat × String) × String)

/-- `pointers.pop(key, "")`: the pointer text and the shrunken dictionary. -/
def popPointer (ps : Pointers) (k : String × Option Nat × String) :
    String × Pointers :=
  match ps with
  | [] => ("", [])
  | (k₁, v₁) :: rest =>
      if k₁ = k then (v₁, rest)
      else
        let (v, rest₂) := popPointer rest k
        (v, (k₁, v₁) :: rest₂)

/-- Build a `PatchedFrame` and apply the two truthiness-guarded field
assignments of `_patch_frames`. -/
def mkPatchedFrame (filename : String) (lineno : Option Nat) (name : String)
    (line : Option String) (pointer : String) : PatchedFrame :=
  let f : PatchedFrame := { filename := filename, lineno := lineno,
                            name := name }
  let f := match line with
           | some s => if s = ("") then f else { f with line := s }
           | Option.none => f
  if pointer = ("") then f else { f with pointer := pointer }

/-- The frame loop of `AEvaluator._patch_frames`: skip hidden frames; for a
frame from a cached execution, rename the wrapper to `<module>`, substitute
the original snippet line (`code.splitlines()[lineno-1]`, which raises
`IndexError` past the end) and rewrite the filename to `<code>`; finally
attach any pointer found for the patched key. -/
def patchFramesGo (cache : List (String × ExecInfo))
    (hidden : List (String × String)) :
    List FrameSummary → Pointers → Except PyErr (List PatchedFrame)
  | [], _ => .ok []
  | f :: rest, ps =>
      if hidden.contains (f.filename, f.name) then
        patchFramesGo cache hidden rest ps
      else
        match getExecInfo cache f.filename with
        | .error e => .error e
        | .ok (some info) =>
            let name := if f.name = info.code then ("<module>") else f.name
            let lineRes : Except PyErr (Option String) :=
              match f.lineno with
              | some ln =>
                  match (pySplitLines info.code).get? (ln - 1) with
                  | some s => .ok (some s)
                  | Option.none => .error PyErr.indexError
              | Option.none => .ok f.line
            match lineRes with
            | .error e => .error e
            | .ok line =>
                let filename := ("<code>")
                let (ptr, ps) := popPointer ps (filename, f.lineno, name)
                match patchFramesGo cache hidden rest ps with
                | .error e => .error e
                | .ok tail =>
                    .ok (mkPatchedFrame filename f.lineno name line ptr
                          :: tail)
        | .ok Option.none =>
            let (ptr, ps) := popPointer ps (f.filename, f.lineno, f.name)
            match patchFramesGo cache hidden rest ps with
            | .error e => .error e
            | .ok tail =>
                .ok (mkPatchedFrame f.filename f.lineno f.name f.line ptr
                      :: tail)

/-- `AEvaluator._patch_frames`: line 268 builds `hidden_frames` from
`self.function_name`, which raises `AttributeError` when `_evaluate` has
never set it. -/
def patchFrames (cache : List (String × ExecInfo)) (evalFile : String)
    (functionName : Option String) (frames : List FrameSummary)
    (pointers : Pointers) : Except PyErr (List PatchedFrame) :=
  match functionName with
  | Option.none => .error (PyErr.attributeError ("function_name"))
  | some fn =>
      let hidden := [(evalFile, fn), (evalFile, "_evaluate"),
                     (evalFile, "aeval")]
      patchFramesGo cache hidden frames pointers

/-- `AEvaluator._patch_exc_info`: only a `SyntaxError` whose message carries
the synthetic filename of the current `self.code_hash` has it replaced by
the `<code>` placeholder (reading `self.code_hash` raises when it was never
assigned). -/
def patchExcInfo (excIsSyntax : Bool) (excText : String)
    (codeHash : Option String) : Except PyErr String :=
  if excIsSyntax then
    match findCodeHash excText with
    | some h =>
        match codeHash with
        | Option.none => .error (PyErr.attributeError ("code_hash"))
        | some ch =>
            if h = ch then
              .ok (excText.replace ("<code " ++ h ++ ">") ("<code>"))
            else .ok excText
    | Option.none => .ok excText
  else .ok excText

/-- `AEvaluator.patch_tb`: patch the frames, then — only for a
`SyntaxError` with a nonempty patched traceback — re-probe the last patched
frame's filename and pop that frame when the cached execution's
`function_name` equals the evaluator's. -/
def patchTb (cache : List (String × ExecInfo)) (evalFile : String)
    (functionName : Option String) (codeHash : Option String)
    (excIsSyntax : Bool) (excText : String) (frames : List FrameSummary)
    (pointers : Pointers) : Except PyErr (List PatchedFrame × String) :=
  match patchFrames cache evalFile functionName frames pointers with
  | .error e => .error e
  | .ok pfs =>
      let popped : Except PyErr (List PatchedFrame) :=
        if excIsSyntax then
          match pfs.getLast? with
          | Option.none => .ok pfs
          | some lastF =>
              match getExecInfo cache lastF.filename with
              | .error e => .error e
              | .ok Option.none => .ok pfs
              | .ok (some info) =>
                  match info.getFunctionName with
                  | .error e => .error e
                  | .ok fn =>
                      match functionName with
                      | Option.none =>
                          .error (PyErr.attributeError ("function_name"))
                      | some selfFn =>
                          if fn = selfFn then .ok pfs.dropLast else .ok pfs
        else .ok pfs
      match popped with
      | .error e => .error e
      | .ok pfs =>
          match patchExcInfo excIsSyntax excText codeHash with
          | .error e => .error e
          | .ok info => .ok (pfs, info)

/-- `AEvaluator.format_tb`: banner, rendered frames, exception line. -/
def format_tb (cache : List (String × ExecInfo)) (evalFile : String)
    (functionName : Option String) (codeHash : Option String)
    (excIsSyntax : Bool) (excText : String) (frames : List FrameSummary)
    (pointers : Pointers) : Except PyErr String :=
  match patchTb cache evalFile functionName codeHash excIsSyntax excText
      frames pointers with
  | .error e => .error e
  | .ok (pfs, excInfo) =>
      .ok (String.intercalate "\n"
        (("Traceback (most recent call last):")
          :: (pfs.map PatchedFrame.render ++ [excInfo])))

/-! ### Claims -/

/-- C10: `EvaluatorExit.__init__` stores the two scope mappings unchanged,
sets `empty_result` exactly when no result argument was supplied, stores
`None` as the result in that case, and otherwise stores the first supplied
argument. -/
theorem c10_evaluator_exit_init (g l : Env) (args : List PyVal) :
    (evaluatorExitInit g l args).globals = g ∧
    (evaluatorExitInit g l args).locals = l ∧
    (evaluatorExitInit g l args).emptyResult = args.isEmpty ∧
    (evaluatorExitInit g l args).result = args.headD PyVal.none := by
  cases args <;> simp [evaluatorExitInit]

/-- C2: `types.ExecutionContext._evaluate` catches only the synthetic exit
signal and re-raises every real error unchanged, but `aeval.AEvaluator.aeval`
does not propagate the original error: its bare `except:` swallows it and the
subsequent use of the never-bound `variables` raises `UnboundLocalError`
instead, for every possible original error. -/
theorem c2_error_propagation :
    (∀ (ctx : ExecContextSt) (err : PyErr),
      (contextEvaluate ctx (RawExec.raiseErr err)).2 = .error err) ∧
    (∀ (ctx : ExecContextSt) (g l : Env) (args : List PyVal),
      (contextEvaluate ctx (RawExec.exitSig g l args)).2 =
        .ok ((evaluatorExitInit g l args).result, g, l)) ∧
    (∀ (sess : SessionA) (code : String) (glb addVars : Env)
        (newHash : String) (err : PyErr) (emptyFlag : Bool),
      (aevalA sess code glb addVars false newHash (.error err)
          emptyFlag).2 =
        .error (PyErr.unboundLocal ("variables"))) := by
  refine ⟨fun ctx err => rfl, fun ctx g l args => ?_, fun _ _ _ _ _ _ _ => rfl⟩
  cases args <;> rfl

/-- C4 counterexample: an isolated call on the `aeval.py` evaluator does
mutate the Session — its `cached_code` gains the snippet's entry. -/
theorem c4_counterexample :
    (aevalA ⟨[], [], []⟩ ("x = 1") [] [] true ("h")
        (.ok (PyVal.int 1, [], [])) false).1.cachedCode ≠ [] := by
  simp [aevalA, codeSet]

/-- C4 amended: an isolated call never mutates the persisted global/local
scope in either evaluator, and on the `evaluator.py` evaluator the whole
Session (execution cache included) is untouched; on the `aeval.py` evaluator
the code cache does gain the snippet's entry. -/
theorem c4_isolated_calls (st : EvaluatorState) (sess : SessionA)
    (code codeA : String) (parsed : List Stmt) (glb addVars glbA addVarsA : Env)
    (newHash hashA : String) (inner : Except PyErr (PyVal × Env × Env))
    (emptyFlag : Bool) :
    (aeval st code parsed glb addVars true newHash).1.session = st.session ∧
    (aevalA sess codeA glbA addVarsA true hashA inner emptyFlag).1.globals
      = sess.globals ∧
    (aevalA sess codeA glbA addVarsA true hashA inner emptyFlag).1.locals
      = sess.locals := by
  refine ⟨?_, ?_, ?_⟩
  · simp only [aeval]
    split <;> rename_i heq
    · simp at heq
    · simp at heq
      obtain ⟨h₁, h₂, h₃, _⟩ := heq
      subst h₃
      split <;> rfl
  · simp only [aevalA]
    split
    · rfl
    · split <;> first | rfl | (split <;> rfl)
  · simp only [aevalA]
    split
    · rfl
    · split <;> first | rfl | (split <;> rfl)

/-- C5: the package-level `_AsyncEval.aeval` short-circuits only the exactly
empty snippet; a whitespace-only snippet passes the unstripped-text guard,
parses to an empty module, and `transform` raises `IndexError` at
`module.body[-1]` instead of returning the empty-result sentinel. -/
theorem c5_whitespace_guard :
    asyncEvalAeval ("") [] = .ok InitOutcome.emptySentinel ∧
    asyncEvalAeval (" ") [] = .error PyErr.indexError := by
  exact ⟨rfl, rfl⟩

/-- C3: a non-isolated evaluate call that ends in an error leaves the
Session's persisted global and local scopes exactly as they were, in both
cited implementations: every erroring path of `evaluator.AEvaluator.aeval`
returns with the session scopes of the pre-state, and the error path of
`aeval.AEvaluator.aeval` (whatever error the inner call raised) also leaves
both scopes untouched; the scopes are merged only on the success path. -/
theorem c3_scope_preserved_on_error (st : EvaluatorState) (sess : SessionA)
    (code codeA : String) (parsed : List Stmt)
    (glb addVars glbA addVarsA : Env) (newHash hashA : String)
    (st' : EvaluatorState) (e eA : PyErr) (emptyFlag : Bool)
    (h : aeval st code parsed glb addVars false newHash = (st', .error e)) :
    (st'.session.globals = st.session.globals ∧
     st'.session.locals = st.session.locals) ∧
    ((aevalA sess codeA glbA addVarsA false hashA (.error eA)
        emptyFlag).1.globals = sess.globals ∧
     (aevalA sess codeA glbA addVarsA false hashA (.error eA)
        emptyFlag).1.locals = sess.locals) := by
  refine ⟨?_, rfl, rfl⟩
  cases hch : st.codeHash with
  | none =>
      simp only [aeval, hch, Bool.false_eq_true, if_false] at h
      rw [Prod.mk.injEq] at h
      obtain ⟨hst, _⟩ := h
      rw [← hst]
      exact ⟨rfl, rfl⟩
  | some h₀ =>
      simp only [aeval, hch, Bool.false_eq_true, if_false] at h
      split at h
      · rw [Prod.mk.injEq] at h
        obtain ⟨hst, _⟩ := h
        rw [← hst]
        exact ⟨rfl, rfl⟩
      · rw [Prod.mk.injEq] at h
        obtain ⟨_, hres⟩ := h
        exact absurd hres (by simp)

/-- C3 witness: the theorem applied to concrete erroring calls — the first
non-isolated call of a fresh `evaluator.py` evaluator (which fails before
any session write), and a non-isolated `aeval.py` call on a session with
populated scopes whose inner evaluation raised a `NameError`. -/
theorem c3_witness :
    ((initEvaluator.session.globals = initEvaluator.session.globals ∧
      initEvaluator.session.locals = initEvaluator.session.locals) ∧
     ((aevalA ⟨[], [(("a"), PyVal.int 1)], [(("b"), PyVal.int 2)]⟩ ("x")
         [] [] false ("h2") (.error (PyErr.nameError ("x")))
         false).1.globals = [(("a"), PyVal.int 1)] ∧
      (aevalA ⟨[], [(("a"), PyVal.int 1)], [(("b"), PyVal.int 2)]⟩ ("x")
         [] [] false ("h2") (.error (PyErr.nameError ("x")))
         false).1.locals = [(("b"), PyVal.int 2)])) :=
  c3_scope_preserved_on_error initEvaluator
    ⟨[], [(("a"), PyVal.int 1)], [(("b"), PyVal.int 2)]⟩ ("x") ("x")
    [Stmt.exprStmt (Expr.name ("x") Ctx.load)] [] [] [] [] ("h") ("h2")
    initEvaluator (PyErr.attributeError ("code_hash"))
    (PyErr.nameError ("x")) false rfl

/-- C1: evaluating the single-expression snippet `1+1` on a freshly
constructed default evaluator does not return `2`: the first non-isolated
call raises `AttributeError` at the `self.code_hash` cache write, and an
isolated call raises `AttributeError` reading the default transformer's
never-assigned `typing_name`.  Once a `typing_name` is present, the cited
pipeline (`handle_Expr` rewrite, execution, result unpacking) does produce
the expression's value `2` with the empty-result flag false, and `aeval`
then returns it as the call's result. -/
theorem c1_single_expression :
    (aeval initEvaluator ("1+1")
        [Stmt.exprStmt (Expr.binOpAdd (Expr.constant (PyVal.int 1))
          (Expr.constant (PyVal.int 1)))] [] [] false ("h")).2 =
      .error (PyErr.attributeError ("code_hash")) ∧
    (aeval initEvaluator ("1+1")
        [Stmt.exprStmt (Expr.binOpAdd (Expr.constant (PyVal.int 1))
          (Expr.constant (PyVal.int 1)))] [] [] true ("h")).2 =
      .error (PyErr.attributeError ("typing_name")) ∧
    (mEvaluate ⟨some ("typing")⟩ false ("1+1")
        [Stmt.exprStmt (Expr.binOpAdd (Expr.constant (PyVal.int 1))
          (Expr.constant (PyVal.int 1)))] [] []).res =
      .ok (PyVal.int 2, [(("amain"), PyVal.pyObj ("amain"))],
           [(("typing"), PyVal.pyObj ("typing"))]) ∧
    (mEvaluate ⟨some ("typing")⟩ false ("1+1")
        [Stmt.exprStmt (Expr.binOpAdd (Expr.constant (PyVal.int 1))
          (Expr.constant (PyVal.int 1)))] [] []).emptyResult = false ∧
    (aeval { initEvaluator with tstate := ⟨some ("typing")⟩ } ("1+1")
        [Stmt.exprStmt (Expr.binOpAdd (Expr.constant (PyVal.int 1))
          (Expr.constant (PyVal.int 1)))] [] [] true ("h")).2 =
      .ok (AevalRet.value (PyVal.int 2)) := by
  refine ⟨rfl, ?_, ?_, ?_, ?_⟩ <;>
    simp [aeval, mEvaluate, initEvaluator, pyStrip, dropLeadingWs,
      uniquify_name, uniquifyNameGo, keys, setItem, transform_module,
      patch_returns_list, patch_returns, patchLast, patch_statement,
      handle_Expr, handle_Return, Expr.hasCtx, Expr.getCtx, execBlock,
      execStmt, evalExpr, evalExprs]

/-- C6: rewriting a terminal multi-target assignment returns an ordered
tuple of the target values in target order together with the scopes, and
both targets are bound in the resulting local scope. -/
theorem c6_multi_target_assign (a b : String) (c : PyVal) (g l : Env) :
    execBlock (transform_module
        [Stmt.assign [Expr.name a Ctx.store, Expr.name b Ctx.store]
          (Expr.constant c)]) ⟨g, l⟩ =
      .ok (some (PyVal.tuple [PyVal.tuple [c, c], PyVal.dict g,
             PyVal.dict (setItem (setItem l a c) b c)]),
           ⟨g, setItem (setItem l a c) b c⟩) ∧
    lookupEnv (setItem (setItem l a c) b c) a = some c ∧
    lookupEnv (setItem (setItem l a c) b c) b = some c := by
  refine ⟨?_, ?_, lookupEnv_setItem_self ..⟩
  · simp [transform_module, patch_returns_list, patch_returns, patchLast,
      patch_statement, handle_Assign, handle_Return, Expr.hasCtx,
      Expr.getCtx, execBlock, execStmt, evalExpr, evalExprs]
  · by_cases hab : a = b
    · subst hab
      rw [setItem_setItem_same]
      exact lookupEnv_setItem_self ..
    · rw [lookupEnv_setItem_ne _ _ _ _ hab]
      exact lookupEnv_setItem_self ..

/-- C8: the failure-reporting pipeline is not raise-free: a traceback frame
whose filename matches no synthetic execution filename makes
`_get_exec_info` fall off its conditional with `exec_info` unbound, so
`format_tb` propagates `UnboundLocalError` instead of rendering a string. -/
theorem c8_format_tb_raises :
    format_tb [] ("/app/async_eval/evaluator.py") (some ("amain"))
      Option.none false ("ValueError: boom")
      [⟨("/usr/lib/python3.12/json/encoder.py"), some 1, ("encode"),
        some ("raise ValueError")⟩] [] =
      .error (PyErr.unboundLocal ("exec_info")) ∧
    getExecInfo [] ("/usr/lib/python3.12/json/encoder.py") =
      .error (PyErr.unboundLocal ("exec_info")) := by
  exact ⟨rfl, rfl⟩

/-- C9: the syntax-error frame drop can never fire.  A syntax error whose
last traceback frame belongs to the latest cached execution has that frame's
filename already rewritten to the placeholder by `_patch_frames`, so the
re-probe in `patch_tb` raises `UnboundLocalError` instead of popping the
frame; and even on an unpatched filename the guard would fault, because
`ExecutionInfo.function_name` is declared but never assigned, so reading it
raises `AttributeError`. -/
theorem c9_syntax_frame_drop_broken :
    patchTb
      [(("12345678-1234-4123-8123-123456789abc"),
        { code := ("1+1"), globals := [], locals := [] })]
      ("/app/async_eval/evaluator.py") (some ("amain"))
      (some ("12345678-1234-4123-8123-123456789abc")) true
      ("SyntaxError: invalid syntax")
      [⟨("<code 12345678-1234-4123-8123-123456789abc>"), some 1,
        ("<module>"), some ("1+1")⟩] [] =
      .error (PyErr.unboundLocal ("exec_info")) ∧
    ExecInfo.getFunctionName
        { code := ("1+1"), globals := [], locals := [] } =
      .error (PyErr.attributeError ("function_name")) := by
  exact ⟨rfl, rfl⟩

/-- Running the rewritten loop body `pass` over the elements binds the loop
name to each element in turn and then runs the synthesized completion
clause with the name bound to the last element. -/
theorem runFor_pass_last (x : String) (orelse : List Stmt) (g : Env) :
    ∀ (vs : List PyVal) (v : PyVal) (l : Env) (w : PyVal),
      (v :: vs).getLast? = some w →
      runFor (Expr.name x Ctx.store) (v :: vs) [Stmt.passStmt] orelse
          ⟨g, l⟩ =
        execBlock orelse ⟨g, setItem l x w⟩ := by
  intro vs
  induction vs with
  | nil =>
      intro v l w h
      simp only [List.getLast?_singleton, Option.some.injEq] at h
      subst h
      simp [runFor, bindTarget, execBlock, execStmt]
  | cons v₂ rest ih =>
      intro v l w h
      rw [List.getLast?_cons_cons] at h
      have step :
          runFor (Expr.name x Ctx.store) (v :: v₂ :: rest) [Stmt.passStmt]
              orelse ⟨g, l⟩ =
            runFor (Expr.name x Ctx.store) (v₂ :: rest) [Stmt.passStmt]
              orelse ⟨g, setItem l x v⟩ := by
        simp [runFor, bindTarget, execBlock, execStmt]
      rw [step, ih v₂ (setItem l x v) w h, setItem_setItem_same]

/-- C7: `handle_For` turns a terminal loop without a completion clause into
one whose synthesized clause returns the loop target normalized to a `Load`
context, and executing the rewritten snippet yields the final binding of the
loop's iteration variable (for `[1,2,3]`, the value `3`). -/
theorem c7_loop_without_else (x : String) (vs : List PyVal) (w : PyVal)
    (g l : Env) (h : vs.getLast? = some w) :
    handle_For (Expr.name x Ctx.store) (Expr.constant (PyVal.list vs))
        [Stmt.passStmt] [] =
      Stmt.forStmt (Expr.name x Ctx.store) (Expr.constant (PyVal.list vs))
        [Stmt.passStmt]
        [Stmt.ret (Expr.tuple [Expr.name x Ctx.load, Expr.callGlobals,
          Expr.callLocals] Ctx.load)] ∧
    execBlock (transform_module
        [Stmt.forStmt (Expr.name x Ctx.store)
          (Expr.constant (PyVal.list vs)) [Stmt.passStmt] []]) ⟨g, l⟩ =
      .ok (some (PyVal.tuple [w, PyVal.dict g,
             PyVal.dict (setItem l x w)]),
           ⟨g, setItem l x w⟩) := by
  constructor
  · simp [handle_For, handle_Return, change_ctx, Expr.hasCtx, Expr.getCtx]
  · cases vs with
    | nil => simp at h
    | cons v rest =>
        have hmod :
            transform_module
                [Stmt.forStmt (Expr.name x Ctx.store)
                  (Expr.constant (PyVal.list (v :: rest)))
                  [Stmt.passStmt] []] =
              [Stmt.forStmt (Expr.name x Ctx.store)
                (Expr.constant (PyVal.list (v :: rest))) [Stmt.passStmt]
                [Stmt.ret (Expr.tuple [Expr.name x Ctx.load,
                  Expr.callGlobals, Expr.callLocals] Ctx.load)],
               Stmt.ret (Expr.tuple [Expr.callGlobals, Expr.callLocals]
                 Ctx.load)] := by
          simp [transform_module, patch_returns_list, patch_returns,
            patchLast, patch_statement, handle_For, handle_Return,
            change_ctx, Expr.hasCtx, Expr.getCtx]
        rw [hmod]
        have hfor := runFor_pass_last x
          [Stmt.ret (Expr.tuple [Expr.name x Ctx.load, Expr.callGlobals,
            Expr.callLocals] Ctx.load)] g rest v l w h
        simp [execBlock, execStmt, evalExpr, evalExprs, hfor,
          lookupEnv_setItem_self]

/-- C7 witness: iterating over `[1, 2, 3]` with a `pass` body yields `3`,
bound to the loop variable in the returned local scope. -/
theorem c7_witness :
    handle_For (Expr.name ("i") Ctx.store)
        (Expr.constant (PyVal.list [PyVal.int 1, PyVal.int 2, PyVal.int 3]))
        [Stmt.passStmt] [] =
      Stmt.forStmt (Expr.name ("i") Ctx.store)
        (Expr.constant (PyVal.list [PyVal.int 1, PyVal.int 2, PyVal.int 3]))
        [Stmt.passStmt]
        [Stmt.ret (Expr.tuple [Expr.name ("i") Ctx.load, Expr.callGlobals,
          Expr.callLocals] Ctx.load)] ∧
    execBlock (transform_module
        [Stmt.forStmt (Expr.name ("i") Ctx.store)
          (Expr.constant (PyVal.list [PyVal.int 1, PyVal.int 2,
            PyVal.int 3])) [Stmt.passStmt] []]) ⟨[], []⟩ =
      .ok (some (PyVal.tuple [PyVal.int 3, PyVal.dict [],
             PyVal.dict [(("i"), PyVal.int 3)]]),
           ⟨[], [(("i"), PyVal.int 3)]⟩) :=
  c7_loop_without_else ("i") [PyVal.int 1, PyVal.int 2, PyVal.int 3]
    (PyVal.int 3) [] [] rfl

end AsyncEval
